import Mathlib

/-!
Verification development for the tennis-elo-app backend.

The Python sources under `backend/app/` are shallowly embedded as Lean
definitions:

* `data_pipeline.py` — surface classifier and match normalizer, embedded as
  computable functions over `SurfaceRow` / `RawRow` (pandas cells that may be
  absent or NaN are modelled as `Option String`, a NaN cell reading as the
  string "nan", mirroring Python's `str(...)` coercion).
* `elo.py` — the Elo calculator and the engine, embedded over `ℝ` (the Python
  floats), with the SQLAlchemy session modelled as an explicit `Store` value
  threaded through the operations, and commit/rollback as a pair of stores
  (`SessionState`: committed database plus pending session state).
* `models.py` — the four ORM entities as plain structures; autoincrement
  primary keys are modelled as `length + 1`; the `updated_at` wall-clock
  column is omitted (untestable nondeterminism, touched by no claim).
* `api.py` — the player-detail endpoint's not-found mapping.
-/

namespace TennisElo

/-! ## String helpers modelling Python's str operations -/

/-- Models `str(row.get(key, ''))` for a cell that may be missing: a missing
column yields the empty string; a NaN cell is expected to be passed as the
string "nan" (Python's `str(float('nan'))`). -/
def pyStr (v : Option String) : String := v.getD ""

/-- Models Python's `.lower()` (ASCII case folding, as used on the dataset). -/
def pyLower (s : String) : String := String.mk (s.toList.map Char.toLower)

/-- Models Python's `.strip()`: whitespace removed from both ends. -/
def pyStrip (s : String) : String :=
  String.mk (((s.toList.dropWhile Char.isWhitespace).reverse.dropWhile Char.isWhitespace).reverse)

/-- Models Python's `.lower().strip()` combination used by the classifier. -/
def pyLowerStrip (s : String) : String := pyStrip (pyLower s)

/-- Replaces every non-overlapping occurrence of `old` in the list,
left to right (an empty `old` leaves the list unchanged; every call site
passes a nonempty pattern). -/
def replaceCore (old new : List Char) : List Char → List Char
  | [] => []
  | c :: rest =>
    if old ≠ [] ∧ old.isPrefixOf (c :: rest) then
      new ++ replaceCore old new (rest.drop (old.length - 1))
    else c :: replaceCore old new rest
termination_by l => l.length
decreasing_by
  · simp only [List.length_cons, List.length_drop]
    omega
  · simp only [List.length_cons]
    omega

/-- Models Python's `str.replace(old, new)`. -/
def pyReplace (s old new : String) : String :=
  String.mk (replaceCore old.toList new.toList s.toList)

/-- An apostrophe character, kept out of string literals. -/
def apos : String := String.singleton (Char.ofNat 39)

/-- Models Python's substring containment test `needle in hay`. -/
def strContainsSub (hay needle : String) : Bool :=
  hay.toList.tails.any (fun t => needle.toList.isPrefixOf t)

/-! ## Surface classifier (`data_pipeline.classify_surface`) -/

/-- Known indoor tournaments (`INDOOR_TOURNAMENTS` in `data_pipeline.py`). -/
def INDOOR_TOURNAMENTS : List String :=
  ["paris masters", "vienna", "basel", "stockholm", "st. petersburg",
   "antwerp", "metz", "moscow", "marseille", "montpellier", "rotterdam",
   "sofia", "atp finals", "next gen finals", "davis cup finals"]

/-- Known grass tournaments (`GRASS_TOURNAMENTS` in `data_pipeline.py`). -/
def GRASS_TOURNAMENTS : List String :=
  ["wimbledon", "halle", "queens", "queen" ++ apos ++ "s club", "stuttgart",
   "eastbourne", "s-hertogenbosch", "newport", "mallorca"]

/-- The three raw columns read by `classify_surface`; `none` models a missing
column (`row.get(..., '')`). -/
structure SurfaceRow where
  Surface : Option String
  Court : Option String
  Tournament : Option String

/-- Embeds `data_pipeline.classify_surface`: classify a raw row into one of
the four canonical surfaces, preferring grass/clay surface strings, then the
explicit Court column, then known-indoor tournament sets, then the substring
"indoor", defaulting to outdoor hard. -/
def classify_surface (row : SurfaceRow) : String :=
  let surface := pyLowerStrip (pyStr row.Surface)
  let court := pyLowerStrip (pyStr row.Court)
  let tournament := pyLowerStrip (pyStr row.Tournament)
  if surface = "grass" || GRASS_TOURNAMENTS.any (fun t => strContainsSub tournament t) then
    "grass"
  else if surface = "clay" then
    "clay"
  else if surface = "hard" || surface = "carpet" then
    if court = "indoor" then "indoor_hard"
    else if court = "outdoor" then "outdoor_hard"
    else if INDOOR_TOURNAMENTS.any (fun t => strContainsSub tournament t) then "indoor_hard"
    else if strContainsSub tournament "indoor" then "indoor_hard"
    else "outdoor_hard"
  else if INDOOR_TOURNAMENTS.any (fun t => strContainsSub tournament t) then "indoor_hard"
  else "outdoor_hard"

/-! ## Match normalizer (`data_pipeline.get_match_records`) -/

/-- A raw dataset row after `load_and_process_data`: the original CSV cells
plus the coerced `match_date` (`none` models pandas NaT, an unparsable date)
and the already-classified surface. -/
structure RawRow where
  Player_1 : Option String
  Player_2 : Option String
  Winner : Option String
  Tournament : Option String
  Round : Option String
  Score : Option String
  Rank_1 : Option Int
  Rank_2 : Option Int
  match_date : Option Nat
  classified_surface : String
deriving DecidableEq

/-- The canonical match dictionary produced by the pipeline and consumed by
the Elo engine (`match` dict in `get_match_records` / `match_data` in
`process_match`). -/
structure MatchInput where
  match_id : String
  tournament_name : String
  surface : String
  match_date : Nat
  round : String
  winner_id : String
  winner_name : String
  winner_country : String
  winner_hand : String
  winner_height : Option Int
  winner_birth_year : Option Int
  winner_rank : Option Int
  loser_id : String
  loser_name : String
  loser_country : String
  loser_hand : String
  loser_height : Option Int
  loser_birth_year : Option Int
  loser_rank : Option Int
  score : String
deriving DecidableEq

/-- Embeds the player-identifier derivation of `get_match_records`:
`name.lower().replace(' ', '_').replace('.', '').replace("'", '')`. -/
def normalizeName (s : String) : String :=
  pyReplace (pyReplace (pyReplace (pyLower s) " " "_") "." "") apos ""

/-- Embeds the per-row body of `data_pipeline.get_match_records`: `none`
models a skipped row (the `continue` branches), `some` the appended match
dictionary. The function is total, modelling that the loop never raises for
these conditions. -/
def get_match_record (row : RawRow) : Option MatchInput :=
  let player_1 := pyStrip (pyStr row.Player_1)
  let player_2 := pyStrip (pyStr row.Player_2)
  let winner_name := pyStrip (pyStr row.Winner)
  if player_1 = "" || player_2 = "" || winner_name = "" then none
  else if player_1 = "nan" || player_2 = "nan" then none
  else
    let wl : Option (String × String) :=
      if winner_name = player_1 then some (player_1, player_2)
      else if winner_name = player_2 then some (player_2, player_1)
      else none
    match wl with
    | none => none
    | some (winner, loser) =>
      match row.match_date with
      | none => none
      | some d =>
        let winner_id := normalizeName winner
        let loser_id := normalizeName loser
        let tournament := pyStrip (pyStr row.Tournament)
        some
          { match_id := toString d ++ "_" ++ tournament ++ "_" ++ winner_id ++ "_" ++ loser_id
            tournament_name := tournament
            surface := row.classified_surface
            match_date := d
            round := pyStr row.Round
            winner_id := winner_id
            winner_name := winner
            winner_country := ""
            winner_hand := ""
            winner_height := none
            winner_birth_year := none
            winner_rank := if winner_name = player_1 then row.Rank_1 else row.Rank_2
            loser_id := loser_id
            loser_name := loser
            loser_country := ""
            loser_hand := ""
            loser_height := none
            loser_birth_year := none
            loser_rank := if winner_name = player_1 then row.Rank_2 else row.Rank_1
            score := pyStr row.Score }

/-- Embeds the whole `get_match_records` loop: the extracted matches in row
order together with the skipped-row count. -/
def get_match_records : List RawRow → List MatchInput × Nat
  | [] => ([], 0)
  | row :: rest =>
    let r := get_match_records rest
    match get_match_record row with
    | none => (r.1, r.2 + 1)
    | some m => (m :: r.1, r.2)

/-! ## Configuration (`config.py`) -/

namespace Config

/-- Embeds `Config.ELO_K_FACTOR = 32`. -/
def ELO_K_FACTOR : ℝ := 32

/-- Embeds `Config.ELO_INITIAL_RATING = 1500`. -/
def ELO_INITIAL_RATING : ℝ := 1500

end Config

/-! ## Data model (`models.py`) -/

/-- The `Player` ORM entity; `id` is the autoincrement primary key,
`player_id` the stable external identifier. -/
structure Player where
  id : Nat
  player_id : String
  name : String
  country : String
  hand : String
  height : Option Int
  birth_year : Option Int
deriving DecidableEq

/-- The `EloRating` ORM entity: one rating per player per surface. -/
structure EloRating where
  player_id : Nat
  surface : String
  rating : ℝ
  matches_played : Nat
  wins : Nat
  losses : Nat
  peak_rating : ℝ
  last_match_date : Option Nat

/-- The `Match` ORM entity: the immutable per-match ledger row. -/
structure Match where
  match_id : String
  tournament_name : String
  surface : String
  match_date : Nat
  round : String
  winner_id : Nat
  loser_id : Nat
  score : String
  winner_elo_before : ℝ
  loser_elo_before : ℝ
  winner_elo_after : ℝ
  loser_elo_after : ℝ

/-- The database contents: the four tables, each in insertion order
(`Metadata` rows as key/value pairs). -/
structure Store where
  players : List Player
  elo_ratings : List EloRating
  «matches» : List Match
  metadata : List (String × String)

/-- A database with no rows. -/
def emptyStore : Store := ⟨[], [], [], []⟩

/-- Embeds the SQLAlchemy session: the committed database plus the current
pending state visible inside the session. -/
structure SessionState where
  db : Store
  cur : Store

/-- Embeds `session.commit()`. -/
def commit (s : SessionState) : SessionState := ⟨s.cur, s.cur⟩

/-- Embeds `session.rollback()`: pending changes since the last commit are
discarded. -/
def rollback (s : SessionState) : SessionState := ⟨s.db, s.db⟩

/-- Embeds the `players` query by external identifier. -/
def findPlayerByExternalId (s : Store) (pid : String) : Option Player :=
  s.players.find? (fun p => p.player_id == pid)

/-- Embeds the `players` query by primary key (used by relationship access). -/
def findPlayerByInternalId (s : Store) (i : Nat) : Option Player :=
  s.players.find? (fun p => p.id == i)

/-- Embeds the `elo_ratings` query by player and surface. -/
def findRating (s : Store) (pid : Nat) (surf : String) : Option EloRating :=
  s.elo_ratings.find? (fun e => e.player_id == pid && e.surface == surf)

/-- Embeds the `matches` query by match identifier. -/
def findMatch (s : Store) (mid : String) : Option Match :=
  s.«matches».find? (fun m => m.match_id == mid)

/-- Embeds an ORM in-place mutation of an `EloRating` row: the row with the
same (player, surface) key is replaced. -/
def updateRating (s : Store) (e : EloRating) : Store :=
  { s with elo_ratings :=
      s.elo_ratings.map (fun r =>
        if r.player_id = e.player_id ∧ r.surface = e.surface then e else r) }

/-- Embeds `Metadata.set_value`'s store mutation: update the row with the
given key if present, else insert a new row. -/
def setMetadataStore (s : Store) (key value : String) : Store :=
  if (s.metadata.find? (fun kv => kv.1 == key)).isSome then
    { s with metadata := s.metadata.map (fun kv => if kv.1 = key then (key, value) else kv) }
  else
    { s with metadata := s.metadata ++ [(key, value)] }

/-- Embeds `Metadata.set_value` (which commits the session itself). -/
def set_value (s : SessionState) (key value : String) : SessionState :=
  commit { s with cur := setMetadataStore s.cur key value }

/-- Embeds `Metadata.get_value`. -/
def get_value (s : Store) (key : String) : Option String :=
  (s.metadata.find? (fun kv => kv.1 == key)).map (fun kv => kv.2)

/-! ## Elo calculator (`elo.EloCalculator`) -/

/-- The Elo calculator with its two configured constants. -/
structure EloCalculator where
  k_factor : ℝ
  initial_rating : ℝ

/-- Models Python's `x or default` for an optional float argument: `None`
and the falsy `0.0` both select the default. -/
noncomputable def pyOrR (x : Option ℝ) (d : ℝ) : ℝ :=
  match x with
  | none => d
  | some v => if v = 0 then d else v

/-- Embeds `EloCalculator.__init__`. -/
noncomputable def EloCalculator.make (k_factor initial_rating : Option ℝ) : EloCalculator :=
  ⟨pyOrR k_factor Config.ELO_K_FACTOR, pyOrR initial_rating Config.ELO_INITIAL_RATING⟩

/-- The calculator constructed by `process_all_matches` (`EloCalculator()`). -/
noncomputable def defaultCalculator : EloCalculator := EloCalculator.make none none

/-- Embeds `EloCalculator.expected_score`: the logistic expected score of
player A against player B (`math.pow` over floats, embedded as `Real.rpow`). -/
noncomputable def EloCalculator.expected_score (_ : EloCalculator) (rating_a rating_b : ℝ) : ℝ :=
  1 / (1 + (10 : ℝ) ^ ((rating_b - rating_a) / 400))

/-- Embeds `EloCalculator.calculate_new_ratings`: the pair of post-match
ratings for winner and loser. -/
noncomputable def EloCalculator.calculate_new_ratings (c : EloCalculator)
    (winner_rating loser_rating : ℝ) : ℝ × ℝ :=
  let expected_winner := c.expected_score winner_rating loser_rating
  let expected_loser := c.expected_score loser_rating winner_rating
  (winner_rating + c.k_factor * (1 - expected_winner),
   loser_rating + c.k_factor * (0 - expected_loser))

/-! ## Elo engine (`elo.py` free functions) -/

/-- The dictionary passed to `get_or_create_player` inside `process_match`. -/
structure PlayerData where
  player_id : String
  name : String
  country : String
  hand : String
  height : Option Int
  birth_year : Option Int

/-- Models the height-validity check in `get_or_create_player` (Python
truthiness: a zero height is dropped; the float-NaN case has no integer
counterpart and is outside the model — no claim touches it). -/
def normalizeHeight : Option Int → Option Int
  | none => none
  | some v => if v = 0 then none else some v

/-- Embeds `elo.get_or_create_player`: find the player by external id, or
insert a new row (autoincrement key modelled as `length + 1`). -/
def get_or_create_player (session : Store) (player_data : PlayerData) : Player × Store :=
  match findPlayerByExternalId session player_data.player_id with
  | some p => (p, session)
  | none =>
    let p : Player :=
      { id := session.players.length + 1
        player_id := player_data.player_id
        name := player_data.name
        country := player_data.country
        hand := player_data.hand
        height := normalizeHeight player_data.height
        birth_year := player_data.birth_year }
    (p, { session with players := session.players ++ [p] })

/-- Embeds `elo.get_or_create_elo_rating`: find the rating row for the
player/surface pair, or insert one seeded at the initial rating (column
defaults fill the counters with zero). -/
def get_or_create_elo_rating (session : Store) (player_id : Nat) (surface : String)
    (initial_rating : ℝ) : EloRating × Store :=
  match findRating session player_id surface with
  | some e => (e, session)
  | none =>
    let e : EloRating :=
      { player_id := player_id, surface := surface, rating := initial_rating
        matches_played := 0, wins := 0, losses := 0
        peak_rating := initial_rating, last_match_date := none }
    (e, { session with elo_ratings := session.elo_ratings ++ [e] })

/-- The winner dictionary built inside `process_match`. -/
def winnerPlayerData (match_data : MatchInput) : PlayerData :=
  { player_id := match_data.winner_id, name := match_data.winner_name
    country := match_data.winner_country, hand := match_data.winner_hand
    height := match_data.winner_height, birth_year := match_data.winner_birth_year }

/-- The loser dictionary built inside `process_match`. -/
def loserPlayerData (match_data : MatchInput) : PlayerData :=
  { player_id := match_data.loser_id, name := match_data.loser_name
    country := match_data.loser_country, hand := match_data.loser_hand
    height := match_data.loser_height, birth_year := match_data.loser_birth_year }

/-- The winner's rating-row mutation block of `process_match`: new rating,
counters, last match date, and the peak raised when exceeded. -/
noncomputable def winnerRatingUpdate (e : EloRating) (new_rating : ℝ) (d : Nat) : EloRating :=
  { e with
      rating := new_rating
      matches_played := e.matches_played + 1
      wins := e.wins + 1
      last_match_date := some d
      peak_rating := if e.peak_rating < new_rating then new_rating else e.peak_rating }

/-- The loser's rating-row mutation block of `process_match`: new rating,
counters and last match date; the peak is not touched. -/
noncomputable def loserRatingUpdate (e : EloRating) (new_rating : ℝ) (d : Nat) : EloRating :=
  { e with
      rating := new_rating
      matches_played := e.matches_played + 1
      losses := e.losses + 1
      last_match_date := some d }

/-- Embeds `elo.process_match`. A duplicate match identifier returns the
existing row unchanged; otherwise players and ratings are fetched or
created, new ratings computed, both rating rows mutated, and the match row
inserted. The loser's row is re-read after the winner's mutation because
the two ORM handles alias the same database row whenever winner and loser
resolve to the same player. -/
noncomputable def process_match (session : Store) (match_data : MatchInput)
    (calculator : EloCalculator) : Match × Store :=
  let surface := match_data.surface
  let match_date := match_data.match_date
  match findMatch session match_data.match_id with
  | some existing => (existing, session)
  | none =>
    let wp := get_or_create_player session (winnerPlayerData match_data)
    let winner := wp.1
    let lp := get_or_create_player wp.2 (loserPlayerData match_data)
    let loser := lp.1
    let we := get_or_create_elo_rating lp.2 winner.id surface calculator.initial_rating
    let winner_elo := we.1
    let le := get_or_create_elo_rating we.2 loser.id surface calculator.initial_rating
    let loser_elo := le.1
    let winner_elo_before := winner_elo.rating
    let loser_elo_before := loser_elo.rating
    let nr := calculator.calculate_new_ratings winner_elo.rating loser_elo.rating
    let new_winner_rating := nr.1
    let new_loser_rating := nr.2
    let winner_elo2 := winnerRatingUpdate winner_elo new_winner_rating match_date
    let s5 := updateRating le.2 winner_elo2
    let loser_cur := (findRating s5 loser.id surface).getD loser_elo
    let loser_elo2 := loserRatingUpdate loser_cur new_loser_rating match_date
    let s6 := updateRating s5 loser_elo2
    let m : Match :=
      { match_id := match_data.match_id
        tournament_name := match_data.tournament_name
        surface := surface
        match_date := match_date
        round := match_data.round
        winner_id := winner.id
        loser_id := loser.id
        score := match_data.score
        winner_elo_before := winner_elo_before
        loser_elo_before := loser_elo_before
        winner_elo_after := new_winner_rating
        loser_elo_after := new_loser_rating }
    (m, { s6 with «matches» := s6.«matches» ++ [m] })

/-- A batch element handed to `process_all_matches`: `good` is a well-formed
match dictionary, `bad` models a row on which `process_match` raises (for
example a dictionary missing a required key, or a persistence failure) —
the `except` branch of the source loop. -/
inductive BatchItem where
  | good (m : MatchInput)
  | bad (match_id : String)

/-- Number of items of a batch on which `process_match` returns. -/
def countGood : List BatchItem → Nat
  | [] => 0
  | BatchItem.good _ :: rest => countGood rest + 1
  | BatchItem.bad _ :: rest => countGood rest

/-- Embeds the `for i, match_data in enumerate(matches)` loop body of
`process_all_matches`: on success increment the counter and commit at each
batch boundary; on an exception roll the session back and continue. -/
noncomputable def runBatchFrom (calculator : EloCalculator) (batch_size : Nat) :
    List BatchItem → Nat → Nat → SessionState → Nat × SessionState
  | [], _, processed, session => (processed, session)
  | BatchItem.good m :: rest, i, processed, session =>
    let cur2 := (process_match session.cur m calculator).2
    let session2 : SessionState := ⟨session.db, cur2⟩
    let session3 := if (i + 1) % batch_size = 0 then commit session2 else session2
    runBatchFrom calculator batch_size rest (i + 1) (processed + 1) session3
  | BatchItem.bad _ :: rest, i, processed, session =>
    runBatchFrom calculator batch_size rest (i + 1) processed (rollback session)

/-- Embeds `elo.process_all_matches`: run the loop, final commit, then write
the two metadata rows (`now` stands for `datetime.utcnow().isoformat()`).
Returns the processed count and the final session. -/
noncomputable def process_all_matches (session : SessionState) («matches» : List BatchItem)
    (batch_size : Nat) (now : String) : Nat × SessionState :=
  let calculator := defaultCalculator
  let r := runBatchFrom calculator batch_size «matches» 0 0 session
  let s1 := commit r.2
  let s2 := set_value s1 "last_update" now
  let s3 := set_value s2 "total_matches" (toString r.1)
  (r.1, s3)

/-! ## Query service (`elo.get_rankings_by_surface`, `elo.get_player_details`) -/

/-- The filter clause of the rankings query: ratings on the requested surface
with at least five matches played. -/
def qualifying (session : Store) (surface : String) : List EloRating :=
  session.elo_ratings.filter (fun e => e.surface == surface && decide (5 ≤ e.matches_played))

/-- One element of the rankings response (`{'rank': ..., 'player': ...,
'elo': ...}`); the SQL inner join is modelled as a primary-key lookup, which
is total on every store the engine produces (foreign-key integrity). -/
structure RankingEntry where
  rank : Nat
  player : Option Player
  elo : EloRating

/-- Embeds `elo.get_rankings_by_surface` as the contract of its SQL query:
the qualifying rows are returned in some rating-descending order — the
query orders by `rating` alone, with no secondary key, so the database
leaves the relative order of equal ratings unspecified — truncated to
`limit`, joined to their players, and numbered from 1. `res` ranges over
exactly the lists the query may return. -/
def get_rankings_by_surface (session : Store) (surface : String)
    (limit : Nat) (res : List RankingEntry) : Prop :=
  ∃ sorted : List EloRating,
    sorted.Perm (qualifying session surface) ∧
    List.Pairwise (fun a b => b.rating ≤ a.rating) sorted ∧
    res = (sorted.take limit).enum.map (fun ie =>
      { rank := ie.1 + 1
        player := findPlayerByInternalId session ie.2.player_id
        elo := ie.2 })

/-- One entry of the profile's recent-match history. -/
structure MatchHistoryEntry where
  match_id : String
  date : Option Nat
  tournament : String
  surface : String
  round : String
  result : String
  opponent : String
  score : String
  elo_change : ℝ

/-- The profile payload returned by `get_player_details`: static player info,
the player's surface ratings, and the recent match history. -/
structure PlayerDetails where
  player : Player
  ratings : List EloRating
  recent_matches : List MatchHistoryEntry

/-- Embeds `elo.get_player_details`: `none` models the Python `None` returned
when no player carries the requested external identifier; otherwise the
profile with all surface ratings and the twenty most recent matches (date
descending), each annotated with result, opponent name and Elo delta. -/
noncomputable def get_player_details (session : Store) (player_id : String) :
    Option PlayerDetails :=
  match findPlayerByExternalId session player_id with
  | none => none
  | some player =>
    let ratings := session.elo_ratings.filter (fun e => e.player_id == player.id)
    let recent := ((session.«matches».filter
        (fun m => m.winner_id == player.id || m.loser_id == player.id)).mergeSort
        (fun a b => decide (b.match_date ≤ a.match_date))).take 20
    let history := recent.map (fun m =>
      let is_winner := m.winner_id == player.id
      { match_id := m.match_id
        date := some m.match_date
        tournament := m.tournament_name
        surface := m.surface
        round := m.round
        result := if is_winner then "W" else "L"
        opponent :=
          match findPlayerByInternalId session
              (if is_winner then m.loser_id else m.winner_id) with
          | some p => p.name
          | none => "Unknown"
        score := m.score
        elo_change :=
          if is_winner then m.winner_elo_after - m.winner_elo_before
          else m.loser_elo_after - m.loser_elo_before })
    some { player := player, ratings := ratings, recent_matches := history }

/-! ## API boundary (`api.get_player`) -/

/-- An HTTP response of the player-detail endpoint: a JSON body or an error
status with message. -/
inductive ApiResponse (α : Type) where
  | ok (body : α)
  | error (status : Nat) (message : String)

/-- Embeds `api.get_player`: a missing profile maps to a 404 error, an
existing one to a 200 body. -/
noncomputable def api_get_player (session : Store) (player_id : String) :
    ApiResponse PlayerDetails :=
  match get_player_details session player_id with
  | none => ApiResponse.error 404 "Player not found"
  | some d => ApiResponse.ok d

/-! ## Helper lemmas about the expected score -/

/-- The expected score is strictly positive. -/
lemma expected_score_pos (c : EloCalculator) (a b : ℝ) : 0 < c.expected_score a b := by
  unfold EloCalculator.expected_score
  have hx : (0:ℝ) < (10 : ℝ) ^ ((b - a) / 400) := Real.rpow_pos_of_pos (by norm_num) _
  positivity

/-- The expected score is strictly below one. -/
lemma expected_score_lt_one (c : EloCalculator) (a b : ℝ) : c.expected_score a b < 1 := by
  unfold EloCalculator.expected_score
  have hx : (0:ℝ) < (10 : ℝ) ^ ((b - a) / 400) := Real.rpow_pos_of_pos (by norm_num) _
  rw [div_lt_one (by linarith)]
  linarith

/-- For equal ratings the expected score is one half. -/
lemma expected_score_self (c : EloCalculator) (r : ℝ) : c.expected_score r r = 1 / 2 := by
  unfold EloCalculator.expected_score
  rw [show (r - r) / 400 = 0 by ring, Real.rpow_zero]
  norm_num

/-- The default calculator carries the configured constants. -/
lemma defaultCalculator_eq : defaultCalculator = ⟨32, 1500⟩ := by
  simp [defaultCalculator, EloCalculator.make, pyOrR, Config.ELO_K_FACTOR,
    Config.ELO_INITIAL_RATING]

/-- The fresh-players update of the default calculator: both start at 1500,
the winner moves to 1516, the loser to 1484. -/
lemma calculate_new_ratings_1500 :
    defaultCalculator.calculate_new_ratings 1500 1500 = (1516, 1484) := by
  unfold EloCalculator.calculate_new_ratings
  rw [expected_score_self, defaultCalculator_eq]
  norm_num

/-! ## Structural lemmas about the store operations -/

/-- Fetch-or-create of a player leaves the match table unchanged. -/
lemma get_or_create_player_matches (s : Store) (pd : PlayerData) :
    (get_or_create_player s pd).2.«matches» = s.«matches» := by
  unfold get_or_create_player
  cases findPlayerByExternalId s pd.player_id <;> rfl

/-- Fetch-or-create of a player leaves the ratings table unchanged. -/
lemma get_or_create_player_ratings (s : Store) (pd : PlayerData) :
    (get_or_create_player s pd).2.elo_ratings = s.elo_ratings := by
  unfold get_or_create_player
  cases findPlayerByExternalId s pd.player_id <;> rfl

/-- Fetch-or-create of a rating leaves the match table unchanged. -/
lemma get_or_create_elo_rating_matches (s : Store) (pid : Nat) (surf : String) (init : ℝ) :
    (get_or_create_elo_rating s pid surf init).2.«matches» = s.«matches» := by
  unfold get_or_create_elo_rating
  cases findRating s pid surf <;> rfl

/-- Updating a rating row leaves the match table unchanged. -/
lemma updateRating_matches (s : Store) (e : EloRating) :
    (updateRating s e).«matches» = s.«matches» := rfl

/-- Anatomy of a non-duplicate `process_match` call: it returns a match row
carrying the input's identifier, appended to the match table. -/
lemma process_match_new (s : Store) (m : MatchInput) (c : EloCalculator)
    (h : findMatch s m.match_id = none) :
    ∃ (rec : Match) (s' : Store), process_match s m c = (rec, s') ∧
      rec.match_id = m.match_id ∧ s'.«matches» = s.«matches» ++ [rec] := by
  unfold process_match
  rw [h]
  refine ⟨_, _, rfl, rfl, ?_⟩
  simp only [updateRating_matches, get_or_create_elo_rating_matches,
    get_or_create_player_matches]

/-! ## Claim theorems -/

/-- Claim C1: idempotent ingestion. If a match row with the input's
identifier already exists, `process_match` returns that row and leaves the
store untouched; consequently processing the same input twice returns the
same row and the same final store both times. -/
theorem process_match_idempotent (s : Store) (m : MatchInput) (c : EloCalculator) :
    (∀ r : Match, findMatch s m.match_id = some r → process_match s m c = (r, s)) ∧
    process_match (process_match s m c).2 m c = process_match s m c := by
  have part1 : ∀ (s' : Store) (r : Match), findMatch s' m.match_id = some r →
      process_match s' m c = (r, s') := by
    intro s' r h
    unfold process_match
    rw [h]
  refine ⟨part1 s, ?_⟩
  cases h : findMatch s m.match_id with
  | some r =>
    have h1 := part1 s r h
    rw [h1]
    exact part1 s r h
  | none =>
    obtain ⟨rec, s', heq, hid, hm⟩ := process_match_new s m c h
    rw [heq]
    apply part1
    unfold findMatch
    rw [hm, List.find?_append]
    have hfm : s.«matches».find? (fun mt => mt.match_id == m.match_id) = none := h
    rw [hfm]
    simp [hid]

/-- A pre-existing match row used to witness idempotent re-ingestion. -/
def matchX : Match :=
  { match_id := "m1", tournament_name := "T", surface := "clay"
    match_date := 20240101, round := "F", winner_id := 1, loser_id := 2
    score := "6-0 6-0", winner_elo_before := 1500, loser_elo_before := 1500
    winner_elo_after := 1516, loser_elo_after := 1484 }

/-- A store already holding `matchX`. -/
def storeM : Store := ⟨[], [], [matchX], []⟩

/-- A match input whose identifier collides with `matchX`. -/
def miX : MatchInput :=
  { match_id := "m1", tournament_name := "T", surface := "clay"
    match_date := 20240101, round := "F"
    winner_id := "a", winner_name := "A", winner_country := "", winner_hand := ""
    winner_height := none, winner_birth_year := none, winner_rank := none
    loser_id := "b", loser_name := "B", loser_country := "", loser_hand := ""
    loser_height := none, loser_birth_year := none, loser_rank := none
    score := "6-0 6-0" }

/-- Witness for claim C1: re-ingesting `miX` into `storeM` returns the
existing row and the unchanged store. -/
theorem process_match_idempotent_witness :
    process_match storeM miX defaultCalculator = (matchX, storeM) :=
  (process_match_idempotent storeM miX defaultCalculator).1 matchX (by rfl)

/-- Claim C6: expected-score symmetry. For all ratings, the expected score of
A against B and of B against A sum to exactly one over the reals. -/
theorem expected_score_symmetry (c : EloCalculator) (a b : ℝ) :
    c.expected_score a b + c.expected_score b a = 1 := by
  unfold EloCalculator.expected_score
  have hx : (0:ℝ) < (10 : ℝ) ^ ((b - a) / 400) := Real.rpow_pos_of_pos (by norm_num) _
  have h2 : (10:ℝ) ^ ((a - b) / 400) = ((10:ℝ) ^ ((b - a) / 400))⁻¹ := by
    rw [show (a - b) / 400 = -((b - a) / 400) by ring, Real.rpow_neg (by norm_num)]
  rw [h2]
  set x := (10 : ℝ) ^ ((b - a) / 400) with hxdef
  have h1 : (1 : ℝ) + x ≠ 0 := by positivity
  have h3 : x ≠ 0 := ne_of_gt hx
  field_simp
  ring

/-- Claim C5: the surface classifier is total with range
{indoor_hard, outdoor_hard, clay, grass}, and follows the priority cascade:
a "Grass" surface wins over any court or tournament; "Hard" with an explicit
"Indoor" court is indoor; "Hard" at a known indoor tournament with no court
column is indoor; "Hard" with no court and an unknown tournament defaults to
outdoor; a missing surface at Wimbledon is grass. -/
theorem classify_surface_spec :
    (∀ row : SurfaceRow,
      classify_surface row = "indoor_hard" ∨ classify_surface row = "outdoor_hard" ∨
      classify_surface row = "clay" ∨ classify_surface row = "grass") ∧
    (∀ c t : Option String, classify_surface ⟨some "Grass", c, t⟩ = "grass") ∧
    classify_surface ⟨some "Hard", some "Indoor", none⟩ = "indoor_hard" ∧
    classify_surface ⟨some "Hard", none, some "Paris Masters"⟩ = "indoor_hard" ∧
    classify_surface ⟨some "Hard", none, none⟩ = "outdoor_hard" ∧
    classify_surface ⟨none, none, some "Wimbledon"⟩ = "grass" := by
  refine ⟨?_, ?_, by decide, by decide, by decide, by decide⟩
  · intro row
    simp only [classify_surface]
    split
    · tauto
    · split
      · tauto
      · split
        · split
          · tauto
          · split
            · tauto
            · split
              · tauto
              · split <;> tauto
        · split <;> tauto
  · intro c t
    have hg : pyLowerStrip "Grass" = "grass" := by decide
    simp [classify_surface, pyStr, hg]

/-- Claim C7: the normalizer is total (never raises) and drops a row exactly
when a player cell is missing (empty or NaN), the winner cell names neither
listed competitor, or the date is unparsable; an emitted MatchInput carries
player identifiers derived deterministically from the normalized names, and
its winner is the row's winner cell matched against the two competitors.
The loop emits rows in order and counts every dropped row. -/
theorem get_match_record_spec :
    (∀ row : RawRow,
      (get_match_record row = none ↔
        pyStrip (pyStr row.Player_1) = "" ∨ pyStrip (pyStr row.Player_2) = "" ∨
        pyStrip (pyStr row.Winner) = "" ∨
        pyStrip (pyStr row.Player_1) = "nan" ∨ pyStrip (pyStr row.Player_2) = "nan" ∨
        (pyStrip (pyStr row.Winner) ≠ pyStrip (pyStr row.Player_1) ∧
         pyStrip (pyStr row.Winner) ≠ pyStrip (pyStr row.Player_2)) ∨
        row.match_date = none)) ∧
    (∀ (row : RawRow) (mi : MatchInput), get_match_record row = some mi →
      mi.winner_id = normalizeName mi.winner_name ∧
      mi.loser_id = normalizeName mi.loser_name ∧
      mi.winner_name = pyStrip (pyStr row.Winner) ∧
      ((mi.winner_name = pyStrip (pyStr row.Player_1) ∧
        mi.loser_name = pyStrip (pyStr row.Player_2)) ∨
       (mi.winner_name = pyStrip (pyStr row.Player_2) ∧
        mi.loser_name = pyStrip (pyStr row.Player_1)))) ∧
    (∀ rows : List RawRow, (get_match_records rows).1 = rows.filterMap get_match_record) ∧
    (∀ rows : List RawRow,
      (get_match_records rows).2 =
        (rows.filter (fun r => (get_match_record r).isNone)).length) := by
  refine ⟨?_, ?_, ?_, ?_⟩
  · intro row
    simp only [get_match_record, Bool.or_eq_true, decide_eq_true_eq]
    split_ifs with h1 h2 h3 h4 <;> (cases hd : row.match_date <;> simp_all)
    all_goals tauto
  · intro row mi h
    simp only [get_match_record, Bool.or_eq_true, decide_eq_true_eq] at h
    split_ifs at h with h1 h2 h3 h4
    · cases hd : row.match_date <;> rw [hd] at h
      · simp at h
      · have hrec := Option.some.inj h
        subst hrec
        exact ⟨rfl, rfl, by simp [h3], Or.inl ⟨by simp [h3], rfl⟩⟩
    · cases hd : row.match_date <;> rw [hd] at h
      · simp at h
      · have hrec := Option.some.inj h
        subst hrec
        exact ⟨rfl, rfl, by simp [h4], Or.inr ⟨by simp [h4], rfl⟩⟩
  · intro rows
    induction rows with
    | nil => rfl
    | cons row rest ih =>
      simp only [get_match_records, List.filterMap_cons]
      cases hr : get_match_record row <;> simp [hr, ih]
  · intro rows
    induction rows with
    | nil => rfl
    | cons row rest ih =>
      simp only [get_match_records, List.filter_cons]
      cases hr : get_match_record row <;> simp [hr, ih]

/-- A concrete well-formed dataset row used to witness the normalizer spec. -/
def row0 : RawRow :=
  { Player_1 := some "Roger Federer", Player_2 := some "Rafael Nadal"
    Winner := some "Roger Federer", Tournament := some "Wimbledon"
    Round := some "F", Score := some "6-4 6-4", Rank_1 := some 1, Rank_2 := some 2
    match_date := some 20190714, classified_surface := "grass" }

/-- The match dictionary the normalizer emits for `row0`. -/
def mi0 : MatchInput :=
  { match_id := "20190714_Wimbledon_roger_federer_rafael_nadal"
    tournament_name := "Wimbledon", surface := "grass", match_date := 20190714
    round := "F", winner_id := "roger_federer", winner_name := "Roger Federer"
    winner_country := "", winner_hand := "", winner_height := none
    winner_birth_year := none, winner_rank := some 1
    loser_id := "rafael_nadal", loser_name := "Rafael Nadal"
    loser_country := "", loser_hand := "", loser_height := none
    loser_birth_year := none, loser_rank := some 2, score := "6-4 6-4" }

unseal replaceCore in
/-- Witness for claim C7 at the concrete row `row0`. -/
theorem get_match_record_spec_witness :
    get_match_record row0 = some mi0 ∧
    (mi0.winner_id = normalizeName mi0.winner_name ∧
     mi0.loser_id = normalizeName mi0.loser_name ∧
     mi0.winner_name = pyStrip (pyStr row0.Winner) ∧
     ((mi0.winner_name = pyStrip (pyStr row0.Player_1) ∧
       mi0.loser_name = pyStrip (pyStr row0.Player_2)) ∨
      (mi0.winner_name = pyStrip (pyStr row0.Player_2) ∧
       mi0.loser_name = pyStrip (pyStr row0.Player_1)))) :=
  ⟨by decide, get_match_record_spec.2.1 row0 mi0 (by decide)⟩

/-- Claim C8: the player profile is `none` exactly when no player in the
store carries the requested external identifier; when the player exists the
profile is returned with that player's data; and the API layer maps the
missing profile — and nothing else — to a 404 error. -/
theorem get_player_details_not_found (s : Store) (pid : String) :
    (get_player_details s pid = none ↔ ¬ ∃ p ∈ s.players, p.player_id = pid) ∧
    (∀ p, findPlayerByExternalId s pid = some p →
      ∃ d, get_player_details s pid = some d ∧ d.player = p) ∧
    (api_get_player s pid = ApiResponse.error 404 "Player not found" ↔
      get_player_details s pid = none) := by
  have key : get_player_details s pid = none ↔ findPlayerByExternalId s pid = none := by
    unfold get_player_details
    cases hf : findPlayerByExternalId s pid <;> simp
  refine ⟨?_, ?_, ?_⟩
  · rw [key]
    unfold findPlayerByExternalId
    rw [List.find?_eq_none]
    constructor
    · rintro h ⟨p, hp, hpid⟩
      exact h p hp (by simp [hpid])
    · intro h p hp hbeq
      exact h ⟨p, hp, by simpa using hbeq⟩
  · intro p hp
    unfold get_player_details
    rw [hp]
    exact ⟨_, rfl, rfl⟩
  · unfold api_get_player
    cases hd : get_player_details s pid <;> simp

/-- A store holding one player and nothing else, for the profile witness. -/
def playerA : Player :=
  { id := 1, player_id := "roger_federer", name := "Roger Federer"
    country := "", hand := "", height := none, birth_year := none }

/-- The one-player store. -/
def storeP : Store := ⟨[playerA], [], [], []⟩

/-- Witness for claim C8: looking up the present identifier yields a profile
carrying that player. -/
theorem get_player_details_not_found_witness :
    ∃ d, get_player_details storeP "roger_federer" = some d ∧ d.player = playerA :=
  (get_player_details_not_found storeP "roger_federer").2.1 playerA (by rfl)

/-- The end-to-end example input: two new players, A beats B on clay. -/
def clayMatchAB : MatchInput :=
  { match_id := "20240415_MC_aa_bb", tournament_name := "MC", surface := "clay"
    match_date := 20240415, round := "F"
    winner_id := "aa", winner_name := "A A", winner_country := "", winner_hand := ""
    winner_height := none, winner_birth_year := none, winner_rank := none
    loser_id := "bb", loser_name := "B B", loser_country := "", loser_hand := ""
    loser_height := none, loser_birth_year := none, loser_rank := none
    score := "6-4 6-4" }

/-- Player A as created by the engine. -/
def playerAA : Player := ⟨1, "aa", "A A", "", "", none, none⟩

/-- Player B as created by the engine. -/
def playerBB : Player := ⟨2, "bb", "B B", "", "", none, none⟩

/-- Winner A's clay rating after the example match. -/
noncomputable def eloAA : EloRating := ⟨1, "clay", 1516, 1, 1, 0, 1516, some 20240415⟩

/-- Loser B's clay rating after the example match. -/
noncomputable def eloBB : EloRating := ⟨2, "clay", 1484, 1, 0, 1, 1500, some 20240415⟩

/-- The ledger row recorded for the example match. -/
noncomputable def recAB : Match :=
  ⟨"20240415_MC_aa_bb", "MC", "clay", 20240415, "F", 1, 2, "6-4 6-4",
   1500, 1500, 1516, 1484⟩

/-- The full store after processing the example match from empty. -/
noncomputable def store1 : Store := ⟨[playerAA, playerBB], [eloAA, eloBB], [recAB], []⟩

/-- Concrete evaluation of the engine on the example match from the empty
store. -/
lemma process_match_empty_eval :
    process_match emptyStore clayMatchAB defaultCalculator = (recAB, store1) := by
  have hc : defaultCalculator.calculate_new_ratings (1500 : ℝ) 1500 = (1516, 1484) :=
    calculate_new_ratings_1500
  have hlt : (1500 : ℝ) < 1516 := by norm_num
  have hi : defaultCalculator.initial_rating = 1500 := rfl
  simp [process_match, get_or_create_player, get_or_create_elo_rating,
    findPlayerByExternalId, findRating, findMatch, updateRating, emptyStore,
    clayMatchAB, normalizeHeight, winnerPlayerData, loserPlayerData,
    winnerRatingUpdate, loserRatingUpdate, hi, hc, hlt, store1, recAB,
    playerAA, playerBB, eloAA, eloBB]

/-- Claim C2: the Elo update postcondition. The computed pair is exactly
`(R_w + K*(1 - E_w), R_l + K*(0 - E_l))` with the logistic expected score;
the configured default K is 32; and end to end, for two fresh players at
1500 on clay under the default calculator, the expected score is one half,
the winner moves to 1516 with peak 1516, the loser to 1484 with peak 1500,
and both have one match played. -/
theorem elo_update_postcondition :
    (∀ (c : EloCalculator) (w l : ℝ),
      c.calculate_new_ratings w l =
        (w + c.k_factor * (1 - c.expected_score w l),
         l + c.k_factor * (0 - c.expected_score l w))) ∧
    Config.ELO_K_FACTOR = 32 ∧
    defaultCalculator.expected_score 1500 1500 = 1 / 2 ∧
    (process_match emptyStore clayMatchAB defaultCalculator).2.elo_ratings =
      [{ player_id := 1, surface := "clay", rating := 1516, matches_played := 1
         wins := 1, losses := 0, peak_rating := 1516, last_match_date := some 20240415 },
       { player_id := 2, surface := "clay", rating := 1484, matches_played := 1
         wins := 0, losses := 1, peak_rating := 1500, last_match_date := some 20240415 }] := by
  refine ⟨fun c w l => rfl, rfl, expected_score_self defaultCalculator 1500, ?_⟩
  rw [process_match_empty_eval]
  rfl

/-- The processed counter equals the starting value plus the number of items
that process without raising, wherever the loop starts. -/
lemma runBatchFrom_count (c : EloCalculator) (bs : Nat) (ms : List BatchItem) :
    ∀ (i p : Nat) (sess : SessionState),
      (runBatchFrom c bs ms i p sess).1 = p + countGood ms := by
  induction ms with
  | nil => intro i p sess; simp [runBatchFrom, countGood]
  | cons item rest ih =>
    intro i p sess
    cases item with
    | good m =>
      simp only [runBatchFrom, countGood, ih]
      omega
    | bad x =>
      simp only [runBatchFrom, countGood, ih]

/-- Updating an association list's entry for a key makes it the first hit. -/
lemma find?_replaceKey (l : List (String × String)) (k v : String)
    (h : (l.find? (fun kv => kv.1 == k)).isSome) :
    (l.map (fun kv => if kv.1 = k then (k, v) else kv)).find?
      (fun kv => kv.1 == k) = some (k, v) := by
  induction l with
  | nil => simp at h
  | cons kv rest ih =>
    by_cases hk : kv.1 = k
    · simp [hk]
    · have hb : (kv.1 == k) = false := by simp [hk]
      simp only [List.map_cons, List.find?_cons, hk, if_false, hb]
      apply ih
      simpa [List.find?_cons, hb] using h

/-- Appending a fresh key to an association list makes it findable. -/
lemma find?_appendKey (l : List (String × String)) (k v : String)
    (h : l.find? (fun kv => kv.1 == k) = none) :
    (l ++ [(k, v)]).find? (fun kv => kv.1 == k) = some (k, v) := by
  rw [List.find?_append, h]
  simp

/-- A metadata upsert is visible to a following read of the same key. -/
lemma get_value_setMetadataStore (s : Store) (k v : String) :
    get_value (setMetadataStore s k v) k = some v := by
  unfold get_value setMetadataStore
  split
  next h =>
    rw [find?_replaceKey _ _ _ h]
    rfl
  next h =>
    have h0 : s.metadata.find? (fun kv => kv.1 == k) = none := by
      rcases hf : s.metadata.find? (fun kv => kv.1 == k) with _ | kv
      · exact hf
      · exact absurd (by rw [hf]; rfl) h
    rw [find?_appendKey _ _ _ h0]
    rfl

/-- The concrete failing batch: one good match followed by a row on which
processing raises, with no batch boundary in between. -/
def badBatch : List BatchItem := [BatchItem.good clayMatchAB, BatchItem.bad "boom"]

/-- Counterexample for claim C3: running `badBatch` from the empty database
reports one processed match and writes "1" to the total-matches metadata,
yet the committed database contains no match row at all — the rollback after
the failing second row also discarded the first, successfully processed
match, and the success count still includes it. -/
theorem process_all_matches_rollback_cex :
    (process_all_matches ⟨emptyStore, emptyStore⟩ badBatch 1000 "t0").1 = 1 ∧
    get_value (process_all_matches ⟨emptyStore, emptyStore⟩ badBatch 1000 "t0").2.db
      "total_matches" = some "1" ∧
    (process_all_matches ⟨emptyStore, emptyStore⟩ badBatch 1000 "t0").2.db.«matches» = [] := by
  have ht : toString (1 : Nat) = "1" := rfl
  simp [process_all_matches, runBatchFrom, badBatch, commit, rollback, set_value,
    setMetadataStore, get_value, emptyStore, ht]

/-- Claim C3 (amended): a failure inside the batch rolls the session back to
the last committed batch boundary — discarding any uncommitted earlier
matches of the window, not just the failing match — and the loop continues
with the next item; the returned count and the total-matches metadata record
the number of matches that processed without raising, which can exceed the
number actually committed. -/
theorem process_all_matches_batch_semantics (sess : SessionState) (ms : List BatchItem)
    (bs : Nat) (now : String) (x : String) (rest : List BatchItem) (i p : Nat)
    (s0 : SessionState) :
    (process_all_matches sess ms bs now).1 = countGood ms ∧
    get_value (process_all_matches sess ms bs now).2.db "total_matches" =
      some (toString (countGood ms)) ∧
    runBatchFrom defaultCalculator bs (BatchItem.bad x :: rest) i p s0 =
      runBatchFrom defaultCalculator bs rest (i + 1) p ⟨s0.db, s0.db⟩ := by
  refine ⟨?_, ?_, rfl⟩
  · simp [process_all_matches, runBatchFrom_count]
  · have h := get_value_setMetadataStore
      (set_value (commit (runBatchFrom defaultCalculator bs ms 0 0 sess).2)
        "last_update" now).cur
      "total_matches" (toString (runBatchFrom defaultCalculator bs ms 0 0 sess).1)
    simpa [process_all_matches, set_value, commit, runBatchFrom_count] using h

/-- First of two players tied at the same clay rating. -/
def playerT1 : Player := ⟨1, "t1", "T One", "", "", none, none⟩

/-- Second of two players tied at the same clay rating. -/
def playerT2 : Player := ⟨2, "t2", "T Two", "", "", none, none⟩

/-- The first-inserted qualifying rating, 1500 on clay. -/
noncomputable def eloT1 : EloRating := ⟨1, "clay", 1500, 6, 3, 3, 1500, none⟩

/-- The second-inserted qualifying rating, also 1500 on clay. -/
noncomputable def eloT2 : EloRating := ⟨2, "clay", 1500, 7, 4, 3, 1500, none⟩

/-- A store holding the two tied ratings, `eloT1` inserted first. -/
noncomputable def storeT : Store := ⟨[playerT1, playerT2], [eloT1, eloT2], [], []⟩

/-- The response listing the tied rows in insertion/player-id order. -/
noncomputable def resStableT : List RankingEntry :=
  [⟨1, some playerT1, eloT1⟩, ⟨2, some playerT2, eloT2⟩]

/-- The response listing the tied rows in the opposite order. -/
noncomputable def resSwapT : List RankingEntry :=
  [⟨1, some playerT2, eloT2⟩, ⟨2, some playerT1, eloT1⟩]

/-- Counterexample for claim C4: with two qualifying clay ratings tied at
1500 and inserted as player 1 then player 2, the rankings query may return
them with player 2 first — the swapped response satisfies the query's
contract just as the insertion-ordered one does, so ties are not broken by
stable insertion/player-id order. -/
theorem rankings_tie_order_cex :
    get_rankings_by_surface storeT "clay" 10 resSwapT ∧
    get_rankings_by_surface storeT "clay" 10 resStableT ∧
    resSwapT ≠ resStableT ∧
    resSwapT.map (fun en => en.elo) = [eloT2, eloT1] ∧
    resStableT.map (fun en => en.elo) = [eloT1, eloT2] ∧
    qualifying storeT "clay" = [eloT1, eloT2] ∧
    eloT1.rating = eloT2.rating ∧
    eloT1.player_id = 1 ∧ eloT2.player_id = 2 := by
  have hq : qualifying storeT "clay" = [eloT1, eloT2] := rfl
  refine ⟨⟨[eloT2, eloT1], ?_, ?_, rfl⟩, ⟨[eloT1, eloT2], ?_, ?_, rfl⟩,
    ?_, rfl, rfl, hq, by norm_num [eloT1, eloT2], rfl, rfl⟩
  · rw [hq]
    exact List.Perm.swap eloT1 eloT2 []
  · norm_num [eloT1, eloT2, List.pairwise_cons]
  · rw [hq]
  · norm_num [eloT1, eloT2, List.pairwise_cons]
  · intro h
    have h2 := congrArg (fun l => l.head?.map (fun en => en.elo.player_id)) h
    simp [resSwapT, resStableT, eloT1, eloT2] at h2

/-- Claim C4 (amended): every response the rankings query may return
contains exactly the ratings on the requested surface with at least five
matches played (a permutation of all of them when the limit does not
truncate), ordered by rating descending and truncated to the limit; the
relative order of equal ratings is left unspecified by the query. -/
theorem rankings_contract_spec (s : Store) (surface : String) (limit : Nat)
    (res : List RankingEntry)
    (hres : get_rankings_by_surface s surface limit res) :
    (∀ en ∈ res, en.elo.surface = surface ∧ 5 ≤ en.elo.matches_played) ∧
    List.Pairwise (fun a b => b.rating ≤ a.rating) (res.map (fun en => en.elo)) ∧
    res.length = min limit (qualifying s surface).length ∧
    ((qualifying s surface).length ≤ limit →
      (res.map (fun en => en.elo)).Perm (qualifying s surface)) := by
  obtain ⟨sorted, hperm, hsort, heq⟩ := hres
  subst heq
  have hmap : ((sorted.take limit).enum.map (fun ie =>
      ({ rank := ie.1 + 1, player := findPlayerByInternalId s ie.2.player_id
         elo := ie.2 } : RankingEntry))).map (fun en => en.elo) = sorted.take limit := by
    rw [List.map_map]
    exact List.enum_map_snd _
  refine ⟨?_, ?_, ?_, ?_⟩
  · intro en hen
    have h1 := List.mem_map_of_mem (fun en : RankingEntry => en.elo) hen
    rw [hmap] at h1
    have h2 := List.mem_of_mem_take h1
    have h3 := (hperm.mem_iff).mp h2
    have h4 := (List.mem_filter.mp h3).2
    simp only [Bool.and_eq_true, beq_iff_eq, decide_eq_true_eq] at h4
    exact h4
  · rw [hmap]
    exact hsort.sublist (List.take_sublist _ _)
  · have hl := congrArg List.length hmap
    rw [List.length_map] at hl
    rw [hl, List.length_take, hperm.length_eq]
  · intro hle
    rw [hmap, List.take_of_length_le (by rw [hperm.length_eq]; exact hle)]
    exact hperm

/-- A rating row that passes the five-match gate, for the witness. -/
noncomputable def eloQ : EloRating := ⟨1, "clay", 1500, 7, 5, 2, 1500, none⟩

/-- A store carrying one qualifying rating. -/
noncomputable def storeQ : Store := ⟨[playerA], [eloQ], [], []⟩

/-- The one admissible response of `storeQ`'s clay query. -/
noncomputable def resQ : List RankingEntry := [⟨1, some playerA, eloQ⟩]

/-- Witness for claim C4 (amended) at the one-rating store with an
untruncating limit. -/
theorem rankings_contract_spec_witness :
    (resQ.map (fun en => en.elo)).Perm (qualifying storeQ "clay") :=
  (rankings_contract_spec storeQ "clay" 100 resQ
    (by
      refine ⟨[eloQ], ?_, ?_, rfl⟩
      · rw [show qualifying storeQ "clay" = [eloQ] from rfl]
      · simp)).2.2.2
    (by simp [qualifying, storeQ, eloQ])

/-! ## Anatomy of a non-duplicate process_match call

Named values of the locals of `process_match`'s creation branch, used to
state and prove the reachability invariants. -/

/-- The local `wp` of `process_match`. -/
noncomputable def wpStep (s : Store) (m : MatchInput) : Player × Store :=
  get_or_create_player s (winnerPlayerData m)

/-- The local `lp` of `process_match`. -/
noncomputable def lpStep (s : Store) (m : MatchInput) : Player × Store :=
  get_or_create_player (wpStep s m).2 (loserPlayerData m)

/-- The local `we` of `process_match`. -/
noncomputable def weStep (s : Store) (m : MatchInput) (c : EloCalculator) :
    EloRating × Store :=
  get_or_create_elo_rating (lpStep s m).2 (wpStep s m).1.id m.surface c.initial_rating

/-- The local `le` of `process_match`. -/
noncomputable def leStep (s : Store) (m : MatchInput) (c : EloCalculator) :
    EloRating × Store :=
  get_or_create_elo_rating (weStep s m c).2 (lpStep s m).1.id m.surface c.initial_rating

/-- The local `nr` of `process_match`. -/
noncomputable def nrStep (s : Store) (m : MatchInput) (c : EloCalculator) : ℝ × ℝ :=
  c.calculate_new_ratings (weStep s m c).1.rating (leStep s m c).1.rating

/-- The local `winner_elo2` of `process_match`. -/
noncomputable def w2Step (s : Store) (m : MatchInput) (c : EloCalculator) : EloRating :=
  winnerRatingUpdate (weStep s m c).1 (nrStep s m c).1 m.match_date

/-- The local `s5` of `process_match`. -/
noncomputable def s5Step (s : Store) (m : MatchInput) (c : EloCalculator) : Store :=
  updateRating (leStep s m c).2 (w2Step s m c)

/-- The local `loser_cur` of `process_match`. -/
noncomputable def lcStep (s : Store) (m : MatchInput) (c : EloCalculator) : EloRating :=
  (findRating (s5Step s m c) (lpStep s m).1.id m.surface).getD (leStep s m c).1

/-- The local `loser_elo2` of `process_match`. -/
noncomputable def l2Step (s : Store) (m : MatchInput) (c : EloCalculator) : EloRating :=
  loserRatingUpdate (lcStep s m c) (nrStep s m c).2 m.match_date

/-- The local `s6` of `process_match`. -/
noncomputable def s6Step (s : Store) (m : MatchInput) (c : EloCalculator) : Store :=
  updateRating (s5Step s m c) (l2Step s m c)

/-- A non-duplicate call's rating table is the table after both mutations. -/
lemma process_match_ratings_eq (s : Store) (m : MatchInput) (c : EloCalculator)
    (h : findMatch s m.match_id = none) :
    (process_match s m c).2.elo_ratings = (s6Step s m c).elo_ratings := by
  unfold process_match
  rw [h]
  rfl

/-- The two player fetch-or-creates leave the rating table unchanged. -/
lemma lpStep_ratings (s : Store) (m : MatchInput) :
    (lpStep s m).2.elo_ratings = s.elo_ratings := by
  unfold lpStep wpStep
  rw [get_or_create_player_ratings, get_or_create_player_ratings]

/-- Fetch-or-create preserves a rating predicate that the fresh row
satisfies, and the returned row satisfies it. -/
lemma gcer_inv (P : EloRating → Prop) (s : Store) (pid : Nat) (surf : String) (init : ℝ)
    (h : ∀ r ∈ s.elo_ratings, P r)
    (hinit : P { player_id := pid, surface := surf, rating := init, matches_played := 0
                 wins := 0, losses := 0, peak_rating := init, last_match_date := none }) :
    (∀ r ∈ (get_or_create_elo_rating s pid surf init).2.elo_ratings, P r) ∧
    P (get_or_create_elo_rating s pid surf init).1 := by
  unfold get_or_create_elo_rating
  cases hf : findRating s pid surf with
  | some e => exact ⟨h, h e (List.mem_of_find?_eq_some hf)⟩
  | none =>
    refine ⟨?_, hinit⟩
    intro r hr
    rcases List.mem_append.mp hr with hr | hr
    · exact h r hr
    · rw [List.mem_singleton] at hr
      exact hr ▸ hinit

/-- An in-place row update preserves a predicate that the new row satisfies. -/
lemma updateRating_inv (P : EloRating → Prop) (s : Store) (e : EloRating)
    (h : ∀ r ∈ s.elo_ratings, P r) (he : P e) :
    ∀ r ∈ (updateRating s e).elo_ratings, P r := by
  intro r hr
  simp only [updateRating, List.mem_map] at hr
  obtain ⟨r0, h0, heq⟩ := hr
  split_ifs at heq
  · exact heq ▸ he
  · exact heq ▸ h r0 h0

/-- The row returned by fetch-or-create carries the requested key. -/
lemma gcer_key (s : Store) (pid : Nat) (surf : String) (init : ℝ) :
    (get_or_create_elo_rating s pid surf init).1.player_id = pid ∧
    (get_or_create_elo_rating s pid surf init).1.surface = surf := by
  unfold get_or_create_elo_rating
  cases hf : findRating s pid surf with
  | some e =>
    have h := List.find?_some hf
    simp only [Bool.and_eq_true, beq_iff_eq] at h
    exact h
  | none => exact ⟨rfl, rfl⟩

/-- After fetch-or-create, the requested key resolves to the returned row. -/
lemma gcer_find_self (s : Store) (pid : Nat) (surf : String) (init : ℝ) :
    findRating (get_or_create_elo_rating s pid surf init).2 pid surf =
      some (get_or_create_elo_rating s pid surf init).1 := by
  unfold get_or_create_elo_rating
  cases hf : findRating s pid surf with
  | some e => exact hf
  | none =>
    unfold findRating at hf ⊢
    rw [List.find?_append, hf]
    simp

/-- A fetch-or-create does not disturb other keys' lookups. -/
lemma gcer_find_other (s : Store) (pid : Nat) (surf : String) (init : ℝ)
    (pid2 : Nat) (surf2 : String) (e : EloRating)
    (h : findRating s pid2 surf2 = some e) :
    findRating (get_or_create_elo_rating s pid surf init).2 pid2 surf2 = some e := by
  unfold get_or_create_elo_rating
  cases hf : findRating s pid surf with
  | some x => exact h
  | none =>
    unfold findRating at h ⊢
    rw [List.find?_append, h]
    rfl

/-- Replacing the rows holding a key makes that key resolve to the new row,
provided the key was present. -/
lemma find?_update_self (l : List EloRating) (e : EloRating)
    (h : (l.find? (fun r => r.player_id == e.player_id && r.surface == e.surface)).isSome) :
    (l.map (fun r => if r.player_id = e.player_id ∧ r.surface = e.surface then e else r)).find?
      (fun r => r.player_id == e.player_id && r.surface == e.surface) = some e := by
  induction l with
  | nil => simp at h
  | cons a rest ih =>
    rw [List.map_cons]
    by_cases hc : a.player_id = e.player_id ∧ a.surface = e.surface
    · rw [if_pos hc]
      exact List.find?_cons_of_pos _ (by simp)
    · have hpa : (a.player_id == e.player_id && a.surface == e.surface) = false := by
        rw [Bool.eq_false_iff]
        exact fun hcon => hc (by simpa using hcon)
      simp only [List.find?_cons, hpa] at h ⊢
      rw [if_neg hc]
      simp only [List.find?_cons, hpa]
      exact ih h

/-- Replacing the rows holding one key does not disturb lookups of another. -/
lemma find?_update_other (l : List EloRating) (e : EloRating) (pid : Nat) (surf : String)
    (h : ¬(pid = e.player_id ∧ surf = e.surface)) :
    (l.map (fun r => if r.player_id = e.player_id ∧ r.surface = e.surface then e else r)).find?
      (fun r => r.player_id == pid && r.surface == surf) =
      l.find? (fun r => r.player_id == pid && r.surface == surf) := by
  induction l with
  | nil => rfl
  | cons a rest ih =>
    rw [List.map_cons]
    by_cases hc : a.player_id = e.player_id ∧ a.surface = e.surface
    · rw [if_pos hc]
      have hpe : (e.player_id == pid && e.surface == surf) = false := by
        rw [Bool.eq_false_iff]
        intro hcon
        have hcon2 : e.player_id = pid ∧ e.surface = surf := by simpa using hcon
        exact h ⟨hcon2.1.symm, hcon2.2.symm⟩
      have hpa : (a.player_id == pid && a.surface == surf) = false := by
        rw [Bool.eq_false_iff]
        intro hcon
        have hcon2 : a.player_id = pid ∧ a.surface = surf := by simpa using hcon
        exact h ⟨hcon2.1.symm.trans hc.1, hcon2.2.symm.trans hc.2⟩
      simp only [List.find?_cons, hpe, hpa]
      exact ih
    · rw [if_neg hc]
      simp only [List.find?_cons]
      cases hpa : (a.player_id == pid && a.surface == surf) with
      | true => rfl
      | false => exact ih

/-- Store-level form of `find?_update_self`. -/
lemma findRating_update_self (s : Store) (e : EloRating)
    (h : (findRating s e.player_id e.surface).isSome) :
    findRating (updateRating s e) e.player_id e.surface = some e :=
  find?_update_self s.elo_ratings e h

/-- Store-level form of `find?_update_other`. -/
lemma findRating_update_other (s : Store) (e : EloRating) (pid : Nat) (surf : String)
    (h : ¬(pid = e.player_id ∧ surf = e.surface)) :
    findRating (updateRating s e) pid surf = findRating s pid surf :=
  find?_update_other s.elo_ratings e pid surf h

/-- One engine call preserves the win/loss accounting invariant. -/
lemma process_match_counts (s : Store) (m : MatchInput) (c : EloCalculator)
    (h : ∀ r ∈ s.elo_ratings, r.matches_played = r.wins + r.losses) :
    ∀ r ∈ (process_match s m c).2.elo_ratings, r.matches_played = r.wins + r.losses := by
  cases hfm : findMatch s m.match_id with
  | some e =>
    unfold process_match
    rw [hfm]
    exact h
  | none =>
    rw [process_match_ratings_eq s m c hfm]
    have hbase : ∀ r ∈ (lpStep s m).2.elo_ratings, r.matches_played = r.wins + r.losses := by
      rw [lpStep_ratings]
      exact h
    have hwe : (∀ r ∈ (weStep s m c).2.elo_ratings, r.matches_played = r.wins + r.losses) ∧
        (weStep s m c).1.matches_played = (weStep s m c).1.wins + (weStep s m c).1.losses :=
      gcer_inv _ _ _ _ _ hbase (by simp)
    have hle : (∀ r ∈ (leStep s m c).2.elo_ratings, r.matches_played = r.wins + r.losses) ∧
        (leStep s m c).1.matches_played = (leStep s m c).1.wins + (leStep s m c).1.losses :=
      gcer_inv _ _ _ _ _ hwe.1 (by simp)
    have hwe2 := hwe.2
    have hw2 : (w2Step s m c).matches_played = (w2Step s m c).wins + (w2Step s m c).losses := by
      show (weStep s m c).1.matches_played + 1 =
        ((weStep s m c).1.wins + 1) + (weStep s m c).1.losses
      omega
    have hs5 : ∀ r ∈ (s5Step s m c).elo_ratings, r.matches_played = r.wins + r.losses :=
      updateRating_inv _ _ _ hle.1 hw2
    have hlc : (lcStep s m c).matches_played = (lcStep s m c).wins + (lcStep s m c).losses := by
      unfold lcStep
      cases hf : findRating (s5Step s m c) (lpStep s m).1.id m.surface with
      | some e => exact hs5 e (List.mem_of_find?_eq_some hf)
      | none => exact hle.2
    have hl2 : (l2Step s m c).matches_played = (l2Step s m c).wins + (l2Step s m c).losses := by
      show (lcStep s m c).matches_played + 1 =
        (lcStep s m c).wins + ((lcStep s m c).losses + 1)
      omega
    exact updateRating_inv _ _ _ hs5 hl2

/-- Stores reachable from the empty database by sequences of engine calls. -/
inductive Reachable : Store → Prop where
  | empty : Reachable emptyStore
  | step (s : Store) (m : MatchInput) (c : EloCalculator) :
      Reachable s → Reachable (process_match s m c).2

/-- Stores reachable from the empty database by engine calls whose
calculator has a nonnegative K factor (the configured default is 32). -/
inductive ReachableK : Store → Prop where
  | empty : ReachableK emptyStore
  | step (s : Store) (m : MatchInput) (c : EloCalculator) (hk : 0 ≤ c.k_factor) :
      ReachableK s → ReachableK (process_match s m c).2

/-- Claim C10: in every store reachable from empty by engine calls, each
rating row satisfies matches_played = wins + losses. -/
theorem matches_played_eq_wins_add_losses (s : Store) (hs : Reachable s) :
    ∀ r ∈ s.elo_ratings, r.matches_played = r.wins + r.losses := by
  induction hs with
  | empty => intro r hr; simp [emptyStore] at hr
  | step s' m c hs' ih => exact process_match_counts s' m c ih

/-- Witness for claim C10 on the store reached by one processed match. -/
theorem matches_played_eq_wins_add_losses_witness :
    eloAA.matches_played = eloAA.wins + eloAA.losses :=
  matches_played_eq_wins_add_losses store1
    (by
      have h := Reachable.step emptyStore clayMatchAB defaultCalculator Reachable.empty
      rwa [process_match_empty_eval] at h)
    eloAA (by simp [store1])

/-- One engine call with a nonnegative K factor preserves the peak
invariant: the winner's peak is raised to cover the new rating, and the
loser's rating can only fall, so the loser's untouched peak still
dominates — including the corner case where winner and loser share the
same rating row. -/
lemma process_match_peak (s : Store) (m : MatchInput) (c : EloCalculator)
    (hk : 0 ≤ c.k_factor)
    (h : ∀ r ∈ s.elo_ratings, r.rating ≤ r.peak_rating) :
    ∀ r ∈ (process_match s m c).2.elo_ratings, r.rating ≤ r.peak_rating := by
  cases hfm : findMatch s m.match_id with
  | some e =>
    unfold process_match
    rw [hfm]
    exact h
  | none =>
    rw [process_match_ratings_eq s m c hfm]
    have hbase : ∀ r ∈ (lpStep s m).2.elo_ratings, r.rating ≤ r.peak_rating := by
      rw [lpStep_ratings]
      exact h
    have hwe : (∀ r ∈ (weStep s m c).2.elo_ratings, r.rating ≤ r.peak_rating) ∧
        (weStep s m c).1.rating ≤ (weStep s m c).1.peak_rating :=
      gcer_inv _ _ _ _ _ hbase (le_refl _)
    have hle : (∀ r ∈ (leStep s m c).2.elo_ratings, r.rating ≤ r.peak_rating) ∧
        (leStep s m c).1.rating ≤ (leStep s m c).1.peak_rating :=
      gcer_inv _ _ _ _ _ hwe.1 (le_refl _)
    have hwpeak : (weStep s m c).1.peak_rating ≤ (w2Step s m c).peak_rating := by
      show (weStep s m c).1.peak_rating ≤
        (if (weStep s m c).1.peak_rating < (nrStep s m c).1 then (nrStep s m c).1
         else (weStep s m c).1.peak_rating)
      split
      · next hlt => exact le_of_lt hlt
      · exact le_refl _
    have hw2 : (w2Step s m c).rating ≤ (w2Step s m c).peak_rating := by
      show (nrStep s m c).1 ≤
        (if (weStep s m c).1.peak_rating < (nrStep s m c).1 then (nrStep s m c).1
         else (weStep s m c).1.peak_rating)
      split
      · exact le_refl _
      · next hnlt => exact le_of_not_lt hnlt
    have hs5 : ∀ r ∈ (s5Step s m c).elo_ratings, r.rating ≤ r.peak_rating :=
      updateRating_inv _ _ _ hle.1 hw2
    have hnr2 : (nrStep s m c).2 ≤ (leStep s m c).1.rating := by
      have hE : 0 < c.expected_score (leStep s m c).1.rating (weStep s m c).1.rating :=
        expected_score_pos c _ _
      have hkE : 0 ≤ c.k_factor *
          c.expected_score (leStep s m c).1.rating (weStep s m c).1.rating :=
        mul_nonneg hk hE.le
      show (leStep s m c).1.rating +
          c.k_factor *
            (0 - c.expected_score (leStep s m c).1.rating (weStep s m c).1.rating) ≤
        (leStep s m c).1.rating
      linarith
    have hpeak : (leStep s m c).1.peak_rating ≤ (lcStep s m c).peak_rating := by
      unfold lcStep
      cases hf : findRating (s5Step s m c) (lpStep s m).1.id m.surface with
      | none => exact le_refl _
      | some e =>
        have hwe_key : (weStep s m c).1.player_id = (wpStep s m).1.id ∧
            (weStep s m c).1.surface = m.surface :=
          gcer_key _ _ _ _
        have hle_find : findRating (leStep s m c).2 (lpStep s m).1.id m.surface =
            some (leStep s m c).1 := gcer_find_self _ _ _ _
        by_cases hkey : (lpStep s m).1.id = (wpStep s m).1.id
        · -- winner and loser resolved to the same rating row
          have hwe_find : findRating (leStep s m c).2 (wpStep s m).1.id m.surface =
              some (weStep s m c).1 :=
            gcer_find_other _ _ _ _ _ _ _ (gcer_find_self _ _ _ _)
          have hle_find2 : findRating (leStep s m c).2 (wpStep s m).1.id m.surface =
              some (leStep s m c).1 := by
            rw [← hkey]
            exact hle_find
          have hsame : (leStep s m c).1 = (weStep s m c).1 :=
            Option.some.inj (hle_find2.symm.trans hwe_find)
          have hw2p : (w2Step s m c).player_id = (lpStep s m).1.id := by
            show (weStep s m c).1.player_id = _
            rw [hwe_key.1, hkey]
          have hw2s : (w2Step s m c).surface = m.surface := hwe_key.2
          have hfind5 : findRating (s5Step s m c) (lpStep s m).1.id m.surface =
              some (w2Step s m c) := by
            rw [← hw2p, ← hw2s]
            apply findRating_update_self
            rw [hw2p, hw2s, hle_find]
            rfl
          have he : e = w2Step s m c := by
            rw [hfind5] at hf
            exact (Option.some.inj hf).symm
          show (leStep s m c).1.peak_rating ≤ e.peak_rating
          rw [he, hsame]
          exact hwpeak
        · -- distinct rows: the winner mutation leaves the loser's row alone
          have hne : ¬((lpStep s m).1.id = (w2Step s m c).player_id ∧
              m.surface = (w2Step s m c).surface) := by
            intro hcon
            apply hkey
            have hp : (w2Step s m c).player_id = (wpStep s m).1.id := hwe_key.1
            exact hcon.1.trans hp
          have hsame5 : findRating (s5Step s m c) (lpStep s m).1.id m.surface =
              findRating (leStep s m c).2 (lpStep s m).1.id m.surface :=
            findRating_update_other _ _ _ _ hne
          rw [hsame5, hle_find] at hf
          have he := Option.some.inj hf
          show (leStep s m c).1.peak_rating ≤ e.peak_rating
          rw [← he]
    have hl2 : (l2Step s m c).rating ≤ (l2Step s m c).peak_rating := by
      show (nrStep s m c).2 ≤ (lcStep s m c).peak_rating
      calc (nrStep s m c).2 ≤ (leStep s m c).1.rating := hnr2
        _ ≤ (leStep s m c).1.peak_rating := hle.2
        _ ≤ (lcStep s m c).peak_rating := hpeak
    exact updateRating_inv _ _ _ hs5 hl2

/-- Claim C9: in every store reachable from empty by engine calls with a
nonnegative K factor (the configured default is 32), each rating row
satisfies peak_rating ≥ rating. -/
theorem peak_rating_ge_rating (s : Store) (hs : ReachableK s) :
    ∀ r ∈ s.elo_ratings, r.rating ≤ r.peak_rating := by
  induction hs with
  | empty => intro r hr; simp [emptyStore] at hr
  | step s' m c hk hs' ih => exact process_match_peak s' m c hk ih

/-- Witness for claim C9 on the store reached by one processed match. -/
theorem peak_rating_ge_rating_witness :
    eloBB.rating ≤ eloBB.peak_rating :=
  peak_rating_ge_rating store1
    (by
      have hk : (0:ℝ) ≤ defaultCalculator.k_factor := by
        rw [defaultCalculator_eq]
        norm_num
      have h := ReachableK.step emptyStore clayMatchAB defaultCalculator hk ReachableK.empty
      rwa [process_match_empty_eval] at h)
    eloBB (by simp [store1])

end TennisElo
